import Mathlib

/-!
Verification of the book-catalog scraping pipeline (`web_scraping.py`).

The HTML document tree, the BeautifulSoup-style queries used by the script
(`find`, `find_all`, `get_text(strip=True)`, `find_next_sibling`, attribute
and class lookup, tag truthiness), and the string-parsing helpers
(`re.search`, `float`, `int`, `str.replace`) are embedded as executable
Lean definitions, and `collect_book_urls` / `parse_book_page` / the main
extraction loop are translated on top of them.  Fallible Python code
(attribute access on `None`, `float`/`int` conversion errors, missing
subscripts) is modelled with `Except PyErr`.
-/

/-- Python exception kinds that the scraping code can raise. -/
inductive PyErr where
  | attributeError
  | valueError
  | keyError
deriving DecidableEq, Repr

/-- An HTML document tree: element nodes with a tag name, attributes and
children, and text nodes. -/
inductive Html where
  | text (s : String)
  | elem (tag : String) (attrs : List (String × String)) (children : List Html)

deriving instance DecidableEq for Except

/-- First value bound to attribute `k`, as stored in a tag's attribute list. -/
def attrOf (attrs : List (String × String)) (k : String) : Option String :=
  (attrs.find? (fun p => p.1 == k)).map (·.2)

/-- Split a character list on whitespace runs, dropping empty words (the
whitespace split an HTML parser applies to a multi-valued attribute). -/
def splitWSAux (acc : List Char) : List Char → List (List Char)
  | [] => if acc.isEmpty then [] else [acc.reverse]
  | c :: rest =>
    if c.isWhitespace then
      if acc.isEmpty then splitWSAux [] rest
      else acc.reverse :: splitWSAux [] rest
    else splitWSAux (c :: acc) rest

/-- The multi-valued `class` attribute of a node
(BeautifulSoup's `tag.get("class", [])`). -/
def classTokens (h : Html) : List String :=
  match h with
  | .text _ => []
  | .elem _ attrs _ =>
    match attrOf attrs "class" with
    | none => []
    | some s => (splitWSAux [] s.data).map String.mk

/-- Does a node match a `find`/`find_all` query: tag name, optionally a
required `class` token, optionally a required `id` value? -/
def nodeMatches (tag : String) (cls idA : Option String) (h : Html) : Bool :=
  match h with
  | .text _ => false
  | .elem t attrs _ =>
    t == tag &&
    (match cls with | none => true | some c => (classTokens h).contains c) &&
    (match idA with | none => true | some i => attrOf attrs "id" == some i)

mutual
/-- All matching descendants of a node in document (pre-)order, each paired
with the list of its following siblings (needed for `find_next_sibling`). -/
def findAllWR (tag : String) (cls idA : Option String) : Html → List (Html × List Html)
  | .text _ => []
  | .elem _ _ cs => findAllWRL tag cls idA cs
/-- `findAllWR` over a list of sibling nodes. -/
def findAllWRL (tag : String) (cls idA : Option String) : List Html → List (Html × List Html)
  | [] => []
  | c :: rest =>
    (if nodeMatches tag cls idA c then [(c, rest)] else [])
      ++ findAllWR tag cls idA c ++ findAllWRL tag cls idA rest
end

/-- BeautifulSoup `find_all`: all matching descendants in document order. -/
def findAll (tag : String) (cls idA : Option String) (h : Html) : List Html :=
  (findAllWR tag cls idA h).map Prod.fst

/-- BeautifulSoup `find`: the first matching descendant, if any. -/
def findFirst (tag : String) (cls idA : Option String) (h : Html) : Option Html :=
  (findAll tag cls idA h).head?

/-- The first matching descendant together with its following siblings. -/
def findFirstWR (tag : String) (cls idA : Option String) (h : Html) :
    Option (Html × List Html) :=
  (findAllWR tag cls idA h).head?

/-- BeautifulSoup `find_next_sibling(tag)`: the first following sibling that
is an element with the given tag name. -/
def nextSiblingTag (tag : String) : List Html → Option Html
  | [] => none
  | .elem t a cs :: rest =>
    if t == tag then some (.elem t a cs) else nextSiblingTag tag rest
  | .text _ :: rest => nextSiblingTag tag rest

mutual
/-- The text fragments of a subtree, in document order. -/
def textOf : Html → List String
  | .text s => [s]
  | .elem _ _ cs => textOfL cs
/-- `textOf` over a list of sibling nodes. -/
def textOfL : List Html → List String
  | [] => []
  | c :: rest => textOf c ++ textOfL rest
end

/-- Python `str.strip()`: drop leading and trailing whitespace. -/
def trimWS (cs : List Char) : List Char :=
  ((cs.dropWhile Char.isWhitespace).reverse.dropWhile Char.isWhitespace).reverse

/-- BeautifulSoup `get_text(strip=True)`: each text fragment stripped of
surrounding whitespace, concatenated. -/
def getTextStrip (h : Html) : String :=
  String.mk (((textOf h).map (fun s => trimWS s.data)).flatten)

/-- Python truthiness of a tag: a `Tag`'s `__len__` is the number of its
children, so a childless tag is falsy; a text node is falsy iff empty. -/
def htmlTruthy (h : Html) : Bool :=
  match h with
  | .text s => !s.isEmpty
  | .elem _ _ cs => !cs.isEmpty

/-- Python truthiness of an `Optional[Tag]`: `None` is falsy. -/
def tagTruthy (h : Option Html) : Bool :=
  match h with
  | none => false
  | some t => htmlTruthy t

/-! ## String helpers: Python `re.search`, `float`, `int`, `in`, `replace` -/

/-- Numeric value of a run of decimal digit characters. -/
def digitsToNat (ds : List Char) : Nat :=
  ds.foldl (fun n c => 10 * n + (c.toNat - 48)) 0

/-- Character class of the regex `[\d.]`. -/
def isDigitDot (c : Char) : Bool :=
  c.isDigit || c == '.'

/-- `re.search(r"[\d.]+", raw)`: the first maximal run of digits and dots. -/
def firstDigitDotRun : List Char → Option (List Char)
  | [] => none
  | c :: rest =>
    if isDigitDot c then some (c :: rest.takeWhile isDigitDot)
    else firstDigitDotRun rest

/-- Split a character list at its first `'.'`: the part before, and
(if a dot occurs) the part after. -/
def splitAtDot : List Char → List Char × Option (List Char)
  | [] => ([], none)
  | '.' :: rest => ([], some rest)
  | c :: rest =>
    let p := splitAtDot rest
    (c :: p.1, p.2)

/-- Python `float` restricted to strings of digits and dots (the only inputs
the scraper feeds it): succeeds iff there is at most one dot and at least one
digit, producing the exact decimal value. -/
def pyFloat (cs : List Char) : Option ℚ :=
  match splitAtDot cs with
  | (a, none) =>
    if a.all Char.isDigit && !a.isEmpty then some (digitsToNat a) else none
  | (a, some b) =>
    if a.all Char.isDigit && b.all Char.isDigit && !(a.isEmpty && b.isEmpty) then
      some ((digitsToNat a : ℚ) + (digitsToNat b : ℚ) / 10 ^ b.length)
    else none

/-- `parse_price` from the script: `re.search(r"[\d.]+", raw)` then `float`
on the match, `0.0` when nothing matches; `float` may raise `ValueError`. -/
def parse_price (raw : String) : Except PyErr ℚ :=
  match firstDigitDotRun raw.data with
  | none => .ok 0
  | some run =>
    match pyFloat run with
    | some q => .ok q
    | none => .error .valueError

/-- Python `int` on a string: surrounding whitespace stripped, an optional
sign, then a nonempty digit run; anything else raises `ValueError` (`none`). -/
def pyInt (s : String) : Option Int :=
  match trimWS s.data with
  | [] => none
  | c :: ds =>
    if c == '-' then
      if ds.all Char.isDigit && !ds.isEmpty then some (-(digitsToNat ds : Int))
      else none
    else if c == '+' then
      if ds.all Char.isDigit && !ds.isEmpty then some (digitsToNat ds : Int)
      else none
    else if (c :: ds).all Char.isDigit then some (digitsToNat (c :: ds) : Int)
    else none

/-- Python substring test `p in s` on character lists. -/
def hasInfix (p : List Char) : List Char → Bool
  | [] => p.isPrefixOf []
  | c :: rest => p.isPrefixOf (c :: rest) || hasInfix p rest

/-- The literal tail of the regex `\((\d+) available\)`. -/
def availPat : List Char := " available)".data

/-- `re.search(r"\((\d+) available\)", raw)`: scan left to right for `'('`
followed by a nonempty digit run followed by `" available)"`, returning the
captured integer. -/
def findAvailCount : List Char → Option Nat
  | [] => none
  | '(' :: rest =>
    if !(rest.takeWhile Char.isDigit).isEmpty
        && availPat.isPrefixOf (rest.dropWhile Char.isDigit) then
      some (digitsToNat (rest.takeWhile Char.isDigit))
    else findAvailCount rest
  | _ :: rest => findAvailCount rest

/-- Python `href.replace("../", "")`: remove every (left-to-right,
non-overlapping) occurrence of `"../"`. -/
def replaceDotDotSlash : List Char → List Char
  | '.' :: '.' :: '/' :: rest => replaceDotDotSlash rest
  | c :: rest => c :: replaceDotDotSlash rest
  | [] => []

/-- Strip only the leading `"../"` prefixes of a link (the spec's description
of the URL resolution). -/
def stripLeadingDotDotSlash : List Char → List Char
  | '.' :: '.' :: '/' :: rest => stripLeadingDotDotSlash rest
  | cs => cs

/-! ## Configuration constants and the rating map -/

def BASE_URL : String := "https://books.toscrape.com/"

def CATALOGUE_URL : String := BASE_URL ++ "catalogue/"

/-- `RATING_MAP`, keyed by the site's textual rating class tokens. -/
def RATING_MAP : List (String × Nat) :=
  [("One", 1), ("Two", 2), ("Three", 3), ("Four", 4), ("Five", 5)]

/-- `RATING_MAP.get(c, 0)`. -/
def ratingGet (c : String) : Nat :=
  ((RATING_MAP.find? (fun p => p.1 == c)).map (·.2)).getD 0

/-- The listing-page address built by `collect_book_urls` for page `n`
(the special case for page 1 and the f-string for the rest). -/
def listing_url (n : Nat) : String :=
  if n == 1 then CATALOGUE_URL ++ "page-1.html"
  else CATALOGUE_URL ++ ("page-" ++ (toString n ++ ".html"))

/-- Resolution of a relative book link to an absolute one, as done by
`collect_book_urls`: `CATALOGUE_URL + href.replace("../", "")`. -/
def resolve_book_href (href : String) : String :=
  CATALOGUE_URL ++ String.mk (replaceDotDotSlash href.data)

/-- The spec's description of the same resolution: strip the *leading*
`"../"` prefixes and join, leaving the rest of the link unchanged. -/
def resolve_book_href_spec (href : String) : String :=
  CATALOGUE_URL ++ String.mk (stripLeadingDotDotSlash href.data)

/-! ## Field extractors of `parse_book_page` -/

/-- Title extraction: `soup.find("div", class_="product_main")`, then
`.find("h1").get_text(strip=True)` — which raises `AttributeError` when the
block has no `h1`; `""` when the block is absent (or falsy). -/
def extract_title (soup : Html) : Except PyErr String :=
  match findFirst "div" (some "product_main") none soup with
  | none => .ok ""
  | some t =>
    if htmlTruthy t then
      match findFirst "h1" none none t with
      | none => .error .attributeError
      | some h1 => .ok (getTextStrip h1)
    else .ok ""

/-- Category extraction: third `li` of the breadcrumb, `""` when the
breadcrumb is absent or has at most two segments. -/
def extract_category (soup : Html) : String :=
  match findFirst "ul" (some "breadcrumb") none soup with
  | none => ""
  | some bc =>
    if htmlTruthy bc then
      let crumbs := findAll "li" none none bc
      if crumbs.length > 2 then getTextStrip (crumbs.getD 2 (.text "")) else ""
    else ""

/-- Rating extraction: the first class token of the star marker other than
`"star-rating"`, mapped through `RATING_MAP` with default 0. -/
def extract_rating (soup : Html) : Nat :=
  match findFirst "p" (some "star-rating") none soup with
  | none => 0
  | some st =>
    if htmlTruthy st then
      match (classTokens st).filter (· != "star-rating") with
      | [] => 0
      | c :: _ => ratingGet c
    else 0

/-- One row of the product-information table:
`row.find("th").get_text(strip=True)` / same for `td`; `AttributeError`
when either cell is missing. -/
def parse_info_row (row : Html) : Except PyErr (String × String) :=
  match findFirst "th" none none row with
  | none => .error .attributeError
  | some th =>
    match findFirst "td" none none row with
    | none => .error .attributeError
    | some td => .ok (getTextStrip th, getTextStrip td)

/-- The `info` dictionary scraped from the striped table (empty when the
table is absent or falsy), as the insertion-ordered list of rows. -/
def extract_info (soup : Html) : Except PyErr (List (String × String)) :=
  match findFirst "table" (some "table-striped") none soup with
  | none => .ok []
  | some tbl =>
    if htmlTruthy tbl then (findAll "tr" none none tbl).mapM parse_info_row
    else .ok []

/-- `info.get(k)` with Python dict semantics: the last row written for a key
wins. -/
def infoGet (info : List (String × String)) (k : String) : Option String :=
  (info.reverse.find? (fun p => p.1 == k)).map (·.2)

/-- `info.get(k, d)`. -/
def infoGetD (info : List (String × String)) (k d : String) : String :=
  (infoGet info k).getD d

/-- Derived availability string:
`"In stock" if "In stock" in avail_raw else "Out of stock"`. -/
def availability_of (raw : String) : String :=
  if hasInfix "In stock".data raw.data then "In stock" else "Out of stock"

/-- `int(avail_match.group(1)) if avail_match else 0`. -/
def num_available_of (raw : String) : Int :=
  match findAvailCount raw.data with
  | some n => (n : Int)
  | none => 0

/-- `int(info.get("Number of reviews", 0))`: the literal 0 when the key is
absent, otherwise Python `int` on the raw string (may raise `ValueError`). -/
def extract_num_reviews (info : List (String × String)) : Except PyErr Int :=
  match infoGet info "Number of reviews" with
  | none => .ok 0
  | some s =>
    match pyInt s with
    | some n => .ok n
    | none => .error .valueError

/-- Description extraction: the paragraph following the
`div#product_description` anchor inside the `article.product_page` block;
`""` when any of them is missing. -/
def extract_description (soup : Html) : String :=
  match findFirst "article" (some "product_page") none soup with
  | none => ""
  | some dt =>
    if htmlTruthy dt then
      match findFirstWR "div" none (some "product_description") dt with
      | none => ""
      | some (pt, rest) =>
        if htmlTruthy pt then
          match nextSiblingTag "p" rest with
          | none => ""
          | some np => if htmlTruthy np then getTextStrip np else ""
        else ""
    else ""

/-! ## The Item Record and `parse_book_page` -/

/-- The record built by `parse_book_page` (the keys of the `book` dict). -/
structure Book where
  title : String
  category : String
  rating : Nat
  price : ℚ
  price_excl_tax : ℚ
  price_incl_tax : ℚ
  tax : ℚ
  availability : String
  num_available : Int
  num_reviews : Int
  upc : String
  product_type : String
  description : String
  book_url : String
deriving DecidableEq, Repr

/-- The body of `parse_book_page` after a successful fetch: build the `book`
dict from the document tree, propagating any Python exception. -/
def buildBook (soup : Html) (url : String) : Except PyErr Book := do
  let title ← extract_title soup
  let info ← extract_info soup
  let price_excl ← parse_price (infoGetD info "Price (excl. tax)" "0")
  let price_incl ← parse_price (infoGetD info "Price (incl. tax)" "0")
  let taxv ← parse_price (infoGetD info "Tax" "0")
  let nrev ← extract_num_reviews info
  pure
    { title := title
      category := extract_category soup
      rating := extract_rating soup
      price := price_incl
      price_excl_tax := price_excl
      price_incl_tax := price_incl
      tax := taxv
      availability := availability_of (infoGetD info "Availability" "")
      num_available := num_available_of (infoGetD info "Availability" "")
      num_reviews := nrev
      upc := infoGetD info "UPC" ""
      product_type := infoGetD info "Product Type" ""
      description := extract_description soup
      book_url := url }

/-- `parse_book_page`: `None` when the fetch failed (`get_page` returned
`None`), otherwise the extracted record; exceptions from the body propagate. -/
def parse_book_page (fetched : Option Html) (url : String) :
    Except PyErr (Option Book) :=
  match fetched with
  | none => .ok none
  | some soup => (buildBook soup url).map some

/-- The detail-page loop of `main`: parse each (reference, fetch result)
pair in order, appending each non-`None` record to the output list. -/
def run_extract : List (String × Option Html) → Except PyErr (List Book)
  | [] => .ok []
  | (url, pg) :: rest => do
    let r ← parse_book_page pg url
    let tail ← run_extract rest
    match r with
    | none => pure tail
    | some b => pure (b :: tail)

/-! ## `collect_book_urls`: per-article link extraction -/

/-- Processing of one `article.product_pod` element:
`link_tag = article.find("h3").find("a")` (raises `AttributeError` when the
`h3` is missing), skip when `link_tag` is falsy, else
`CATALOGUE_URL + link_tag["href"].replace("../", "")` (a missing `href`
raises `KeyError`). -/
def process_article (article : Html) : Except PyErr (Option String) :=
  match findFirst "h3" none none article with
  | none => .error .attributeError
  | some h3 =>
    match findFirst "a" none none h3 with
    | none => .ok none
    | some a =>
      if htmlTruthy a then
        match a with
        | .text _ => .ok none
        | .elem _ attrs _ =>
          match attrOf attrs "href" with
          | none => .error .keyError
          | some href => .ok (some (resolve_book_href href))
      else .ok none

/-- The per-page article loop of `collect_book_urls`: process each article
in order, collecting the resolved references of the non-skipped ones. -/
def process_articles : List Html → Except PyErr (List String)
  | [] => .ok []
  | a :: rest => do
    let r ← process_article a
    let tail ← process_articles rest
    match r with
    | none => pure tail
    | some u => pure (u :: tail)

/-- All book references collected from one listing page. -/
def page_book_urls (soup : Html) : Except PyErr (List String) :=
  process_articles (findAll "article" (some "product_pod") none soup)

/-! ## Concrete fixture documents -/

/-- A fetched page with none of the structural anchors. -/
def emptyDoc : Html := .elem "html" [] []

/-- The all-defaults record that `parse_book_page` builds from `emptyDoc`. -/
def defaultRecord (u : String) : Book :=
  { title := "", category := "", rating := 0, price := 0, price_excl_tax := 0,
    price_incl_tax := 0, tax := 0, availability := "Out of stock",
    num_available := 0, num_reviews := 0, upc := "", product_type := "",
    description := "", book_url := u }

/-- A detail page whose main product block exists (and is nonempty) but has
no `h1` heading. -/
def mainNoH1Doc : Html :=
  .elem "html" [] [
    .elem "div" [("class", "product_main")] [.elem "p" [] [.text "x"]]]

/-- A detail page whose attribute table reports a negative review count. -/
def negReviewsDoc : Html :=
  .elem "html" [] [
    .elem "table" [("class", "table-striped")] [
      .elem "tr" [] [.elem "th" [] [.text "Number of reviews"],
                     .elem "td" [] [.text "-5"]]]]

/-- A detail page whose rating marker carries the token `"Four"`. -/
def fourStarDoc : Html :=
  .elem "html" [] [
    .elem "p" [("class", "star-rating Four")] [.elem "i" [] []]]

/-- The rating marker inside `fourStarDoc`. -/
def fourStarTag : Html :=
  .elem "p" [("class", "star-rating Four")] [.elem "i" [] []]

/-- A detail page whose rating marker carries the token `"Four"` but has no
children (falsy to the `if star_tag:` check). -/
def emptyFourDoc : Html :=
  .elem "html" [] [.elem "p" [("class", "star-rating Four")] []]

/-- The childless rating marker inside `emptyFourDoc`. -/
def emptyFourTag : Html :=
  .elem "p" [("class", "star-rating Four")] []

/-- An item-listing element with no `h3` heading at all. -/
def noHeadingArticle : Html :=
  .elem "article" [("class", "product_pod")] [.text "x"]

/-- An item-listing element whose heading contains no anchor. -/
def noAnchorArticle : Html :=
  .elem "article" [("class", "product_pod")] [.elem "h3" [] [.text "t"]]

/-- The heading inside `noAnchorArticle`. -/
def noAnchorHeading : Html := .elem "h3" [] [.text "t"]

/-! ## Helper lemmas -/

theorem except_bind_ok {ε α β : Type} (x : Except ε α) (f : α → Except ε β) (b : β) :
    (x >>= f) = Except.ok b ↔ ∃ a, x = Except.ok a ∧ f a = Except.ok b := by
  cases x <;> simp [Bind.bind, Except.bind]

theorem ratingGet_mem (c : String) : ratingGet c ∈ [0, 1, 2, 3, 4, 5] := by
  unfold ratingGet
  rcases hf : RATING_MAP.find? (fun p => p.1 == c) with _ | x
  · simp [hf]
  · have hx := List.mem_of_find?_eq_some hf
    rw [hf]
    simp only [RATING_MAP, List.mem_cons, List.not_mem_nil, or_false] at hx
    rcases hx with h | h | h | h | h <;> subst h <;> simp

/-- **C10**: in `collect_book_urls`, the special-cased branch for page 1
builds the same address `"page-1.html"` as the general f-string branch
would, so for every page number the fetched listing address is
`CATALOGUE_URL ++ "page-N.html"` and the two branches agree. -/
theorem collect_listing_url_eq (n : Nat) :
    listing_url n = CATALOGUE_URL ++ ("page-" ++ (toString n ++ ".html")) := by
  unfold listing_url
  split
  · rename_i h
    have hn : n = 1 := by simpa using h
    subst hn
    rfl
  · rfl

/-- **C2**: every record constructed by `parse_book_page` has
`price = price_incl_tax` — `price` is defined as a copy of
`price_incl_tax`, not derived independently. -/
theorem record_price_eq_incl_tax (soup : Html) (url : String) (b : Book)
    (h : buildBook soup url = Except.ok b) : b.price = b.price_incl_tax := by
  unfold buildBook at h
  obtain ⟨t, -, h⟩ := (except_bind_ok _ _ _).mp h
  obtain ⟨info, -, h⟩ := (except_bind_ok _ _ _).mp h
  obtain ⟨pe, -, h⟩ := (except_bind_ok _ _ _).mp h
  obtain ⟨pi, -, h⟩ := (except_bind_ok _ _ _).mp h
  obtain ⟨tx, -, h⟩ := (except_bind_ok _ _ _).mp h
  obtain ⟨nr, -, h⟩ := (except_bind_ok _ _ _).mp h
  have h' : Except.ok (ε := PyErr)
      { title := t, category := extract_category soup,
        rating := extract_rating soup, price := pi, price_excl_tax := pe,
        price_incl_tax := pi, tax := tx,
        availability := availability_of (infoGetD info "Availability" ""),
        num_available := num_available_of (infoGetD info "Availability" ""),
        num_reviews := nr, upc := infoGetD info "UPC" "",
        product_type := infoGetD info "Product Type" "",
        description := extract_description soup, book_url := url } = Except.ok b := h
  cases h'
  rfl

theorem record_price_eq_incl_tax_witness :
    (defaultRecord "u").price = (defaultRecord "u").price_incl_tax :=
  record_price_eq_incl_tax emptyDoc "u" (defaultRecord "u") (by decide)

/-- **C5** counterexample: a childless `<p class="star-rating Four">`
marker carries the token `"Four"` alongside `"star-rating"`, yet the
extracted rating is 0, not 4 — a childless bs4 `Tag` is falsy, so
`if star_tag:` takes the default branch. -/
theorem rating_childless_counterexample :
    findFirst "p" (some "star-rating") none emptyFourDoc = some emptyFourTag ∧
    "Four" ∈ classTokens emptyFourTag ∧
    "star-rating" ∈ classTokens emptyFourTag ∧
    extract_rating emptyFourDoc = 0 ∧
    extract_rating emptyFourDoc ≠ 4 :=
  ⟨rfl, by decide, by decide, rfl, by decide⟩

/-- **C5** (amended): a page with no rating marker extracts rating 0; a
page whose first rating marker is non-empty (has children, so it is truthy
to the `if star_tag:` check) and carries the token `"Four"` beside the
constant `"star-rating"` token extracts rating 4; a childless marker is
falsy and extracts 0 even when it carries such a token; extracted ratings
always lie in `{0,1,2,3,4,5}`. -/
theorem rating_extraction (soup : Html) :
    (findFirst "p" (some "star-rating") none soup = none →
      extract_rating soup = 0) ∧
    (∀ st, findFirst "p" (some "star-rating") none soup = some st →
      htmlTruthy st = true →
      ((classTokens st).filter (· != "star-rating")).head? = some "Four" →
      extract_rating soup = 4) ∧
    (∀ st, findFirst "p" (some "star-rating") none soup = some st →
      htmlTruthy st = false →
      extract_rating soup = 0) ∧
    extract_rating soup ∈ [0, 1, 2, 3, 4, 5] := by
  refine ⟨fun h => by unfold extract_rating; rw [h], fun st hf ht hh => ?_,
    fun st hf ht => ?_, ?_⟩
  · unfold extract_rating
    simp only [hf]
    rw [if_pos ht]
    rcases hfl : (classTokens st).filter (· != "star-rating") with _ | ⟨c, rest⟩
    · rw [hfl] at hh
      simp at hh
    · rw [hfl] at hh
      simp at hh
      simp only [hfl]
      rw [hh]
      decide
  · unfold extract_rating
    simp only [hf]
    rw [if_neg (by simp [ht])]
  · unfold extract_rating
    rcases hf : findFirst "p" (some "star-rating") none soup with _ | st
    · simp
    · simp only [hf]
      cases ht : htmlTruthy st
      · simp [ht]
      · rcases hfl : (classTokens st).filter (· != "star-rating") with _ | ⟨c, rest⟩
        · simp [hfl]
        · simpa [hfl] using ratingGet_mem c

theorem rating_extraction_witness :
    extract_rating emptyDoc = 0 ∧ extract_rating fourStarDoc = 4 ∧
    extract_rating emptyFourDoc = 0 :=
  ⟨(rating_extraction emptyDoc).1 rfl,
   (rating_extraction fourStarDoc).2.1 fourStarTag rfl rfl rfl,
   (rating_extraction emptyFourDoc).2.2.1 emptyFourTag rfl rfl⟩

theorem hasInfix_iff (p s : List Char) : hasInfix p s = true ↔ p <:+: s := by
  induction s with
  | nil => simp [hasInfix, List.isPrefixOf_iff_prefix]
  | cons c rest ih =>
    simp [hasInfix, List.isPrefixOf_iff_prefix, ih, List.infix_cons_iff]

theorem findAvailCount_sound (cs : List Char) :
    ∀ n : Nat, findAvailCount cs = some n →
      ∃ pre ds post, cs = pre ++ '(' :: (ds ++ (availPat ++ post)) ∧
        ds ≠ [] ∧ ds.all Char.isDigit = true ∧ digitsToNat ds = n := by
  induction cs using findAvailCount.induct with
  | case1 =>
    intro n h
    simp [findAvailCount] at h
  | case2 rest hc =>
    intro n h
    rw [findAvailCount, if_pos hc] at h
    obtain ⟨hne, hpre⟩ := Bool.and_eq_true_iff.mp hc
    obtain ⟨post, hpost⟩ : ∃ t, availPat ++ t = rest.dropWhile Char.isDigit :=
      List.isPrefixOf_iff_prefix.mp hpre
    refine ⟨[], rest.takeWhile Char.isDigit, post, ?_, ?_, ?_, ?_⟩
    · simp only [List.nil_append, List.cons.injEq, true_and]
      rw [hpost, List.takeWhile_append_dropWhile]
    · simpa using hne
    · exact List.all_eq_true.mpr fun x hx => List.mem_takeWhile_imp hx
    · exact (Option.some.injEq _ _).mp h
  | case3 rest hc ih =>
    intro n h
    rw [findAvailCount, if_neg hc] at h
    obtain ⟨pre, ds, post, hcs, hds, hdig, hn⟩ := ih n h
    exact ⟨'(' :: pre, ds, post, by rw [hcs]; rfl, hds, hdig, hn⟩
  | case4 head rest hne ih =>
    intro n h
    rw [findAvailCount.eq_3 head rest hne] at h
    obtain ⟨pre, ds, post, hcs, hds, hdig, hn⟩ := ih n h
    exact ⟨head :: pre, ds, post, by rw [hcs]; rfl, hds, hdig, hn⟩

/-- **C6**: the raw availability value `"In stock (22 available)"` yields
derived availability `"In stock"` and `num_available = 22`; the raw value
`"Out of stock"` yields `"Out of stock"` and 0; in general the derived
availability is `"In stock"` exactly when the raw value contains that
substring, and any captured count comes from a `"(<digits> available)"`
occurrence in the raw value, defaulting to 0 when the pattern is absent. -/
theorem availability_extraction :
    availability_of "In stock (22 available)" = "In stock" ∧
    num_available_of "In stock (22 available)" = 22 ∧
    availability_of "Out of stock" = "Out of stock" ∧
    num_available_of "Out of stock" = 0 ∧
    (∀ raw : String,
      (availability_of raw = "In stock" ↔ "In stock".data <:+: raw.data)) ∧
    (∀ raw : String, findAvailCount raw.data = none → num_available_of raw = 0) ∧
    (∀ (cs : List Char) (n : Nat), findAvailCount cs = some n →
      ∃ pre ds post, cs = pre ++ '(' :: (ds ++ (availPat ++ post)) ∧
        ds ≠ [] ∧ ds.all Char.isDigit = true ∧ digitsToNat ds = n) := by
  refine ⟨by decide, by decide, by decide, by decide, fun raw => ?_,
    fun raw h => by unfold num_available_of; rw [h], findAvailCount_sound⟩
  unfold availability_of
  by_cases hi : hasInfix "In stock".data raw.data = true
  · rw [if_pos hi]
    exact iff_of_true rfl ((hasInfix_iff _ _).mp hi)
  · rw [if_neg hi]
    exact iff_of_false (by decide) (fun hinf => hi ((hasInfix_iff _ _).mpr hinf))

theorem availability_extraction_witness :
    (availability_of "" = "In stock" ↔ "In stock".data <:+: "".data) ∧
    num_available_of "nope" = 0 ∧
    (∃ pre ds post, "(3 available)".data = pre ++ '(' :: (ds ++ (availPat ++ post)) ∧
      ds ≠ [] ∧ ds.all Char.isDigit = true ∧ digitsToNat ds = 3) :=
  ⟨availability_extraction.2.2.2.2.1 "",
   availability_extraction.2.2.2.2.2.1 "nope" rfl,
   availability_extraction.2.2.2.2.2.2 "(3 available)".data 3 rfl⟩

theorem firstDigitDotRun_none (cs : List Char)
    (h : cs.all (fun ch => !isDigitDot ch) = true) :
    firstDigitDotRun cs = none := by
  induction cs with
  | nil => rfl
  | cons c rest ih =>
    simp only [List.all_cons, Bool.and_eq_true] at h
    cases hdd : isDigitDot c
    · rw [firstDigitDotRun.eq_2, if_neg (by simp [hdd])]
      exact ih h.2
    · rw [hdd] at h
      simp at h

theorem splitAtDot_append (a b : List Char) (ha : ∀ x ∈ a, x ≠ '.') :
    splitAtDot (a ++ '.' :: b) = (a, some b) := by
  induction a with
  | nil => rfl
  | cons x xs ih =>
    have hx : x = '.' → False := fun hh => ha x (by simp) hh
    rw [List.cons_append, splitAtDot.eq_3 x (xs ++ '.' :: b) hx,
      ih (fun y hy => ha y (by simp [hy]))]

theorem firstDigitDotRun_shape (c : Char) (d1 d2 : List Char)
    (hc : isDigitDot c = false) (h1 : d1 ≠ [])
    (h1d : d1.all Char.isDigit = true) (h2d : d2.all Char.isDigit = true) :
    firstDigitDotRun (c :: (d1 ++ '.' :: d2)) = some (d1 ++ '.' :: d2) := by
  rw [firstDigitDotRun.eq_2, if_neg (by simp [hc])]
  rcases d1 with _ | ⟨e, es⟩
  · exact absurd rfl h1
  · simp only [List.all_cons, Bool.and_eq_true] at h1d
    have he : isDigitDot e = true := by simp [isDigitDot, h1d.1]
    rw [List.cons_append, firstDigitDotRun.eq_2, if_pos he]
    have ht : (es ++ '.' :: d2).takeWhile isDigitDot = es ++ '.' :: d2 := by
      refine List.takeWhile_eq_self_iff.mpr ?_
      intro x hx
      rcases List.mem_append.mp hx with hx | hx
      · have hxd := List.all_eq_true.mp h1d.2 x hx
        simp only [isDigitDot, Bool.or_eq_true]
        exact Or.inl (by simpa using hxd)
      · rcases List.mem_cons.mp hx with rfl | hx
        · simp [isDigitDot]
        · have hxd := List.all_eq_true.mp h2d x hx
          simp only [isDigitDot, Bool.or_eq_true]
          exact Or.inl (by simpa using hxd)
    rw [ht]

theorem pyFloat_decimal (d1 d2 : List Char) (h1 : d1 ≠ [])
    (h1d : d1.all Char.isDigit = true) (h2d : d2.all Char.isDigit = true) :
    pyFloat (d1 ++ '.' :: d2) =
      some ((digitsToNat d1 : ℚ) + (digitsToNat d2 : ℚ) / 10 ^ d2.length) := by
  have hd : ∀ x ∈ d1, x ≠ '.' := by
    intro x hx h
    have hxd := List.all_eq_true.mp h1d x hx
    rw [h] at hxd
    exact absurd hxd (by decide)
  unfold pyFloat
  simp only [splitAtDot_append d1 d2 hd]
  rw [if_pos ?_]
  simp [h1d, h2d, List.isEmpty_iff, h1]

/-- **C3** counterexample: the claim says every digit-free string parses to
0.0, but `"."` is digit-free and `parse_price` raises `ValueError` on it
(Python `float(".")`). -/
theorem parse_price_dot_counterexample :
    ("." : String).data.all (fun ch => !ch.isDigit) = true ∧
    parse_price "." = Except.error PyErr.valueError ∧
    parse_price "." ≠ Except.ok 0 :=
  ⟨by decide, by decide, by decide⟩

/-- **C3** (amended): a price string of the form currency-symbol, digits,
dot, digits parses to the decimal value of the digit run; and a string
containing neither digits nor dots parses to 0.0.  (A digit-free string
that does contain a dot instead raises `ValueError`.) -/
theorem parse_price_spec (s1 : String) (c : Char) (d1 d2 : List Char)
    (s2 : String)
    (hs1 : s1.data = c :: (d1 ++ '.' :: d2))
    (hc : isDigitDot c = false) (h1 : d1 ≠ [])
    (h1d : d1.all Char.isDigit = true) (h2d : d2.all Char.isDigit = true)
    (hs2 : s2.data.all (fun ch => !isDigitDot ch) = true) :
    parse_price s1 =
      .ok ((digitsToNat d1 : ℚ) + (digitsToNat d2 : ℚ) / 10 ^ d2.length) ∧
    parse_price s2 = .ok 0 := by
  constructor
  · unfold parse_price
    rw [hs1]
    simp only [firstDigitDotRun_shape c d1 d2 hc h1 h1d h2d,
      pyFloat_decimal d1 d2 h1 h1d h2d]
  · unfold parse_price
    rw [firstDigitDotRun_none s2.data hs2]

theorem parse_price_spec_witness :
    parse_price "£51.77" =
      .ok ((digitsToNat ['5', '1'] : ℚ) +
        (digitsToNat ['7', '7'] : ℚ) / 10 ^ (['7', '7'] : List Char).length) ∧
    parse_price "abc" = .ok 0 :=
  parse_price_spec "£51.77" '£' ['5', '1'] ['7', '7'] "abc" rfl (by decide)
    (by decide) (by decide) (by decide) (by decide)

theorem replaceDDS_eq_self (cs : List Char)
    (h : hasInfix "../".data cs = false) : replaceDotDotSlash cs = cs := by
  induction cs using replaceDotDotSlash.induct with
  | case1 rest ih =>
    exfalso
    simp [hasInfix, List.isPrefixOf] at h
  | case2 c rest hne ih =>
    rw [replaceDotDotSlash.eq_2 c rest hne]
    simp only [hasInfix, Bool.or_eq_false_iff] at h
    rw [ih h.2]
  | case3 => rfl

theorem replace_eq_strip (cs : List Char)
    (h : hasInfix "../".data (stripLeadingDotDotSlash cs) = false) :
    replaceDotDotSlash cs = stripLeadingDotDotSlash cs := by
  induction cs using stripLeadingDotDotSlash.induct with
  | case1 rest ih =>
    rw [stripLeadingDotDotSlash.eq_1] at h ⊢
    rw [replaceDotDotSlash.eq_1]
    exact ih h
  | case2 cs hne =>
    rw [stripLeadingDotDotSlash.eq_2 cs hne] at h ⊢
    exact replaceDDS_eq_self cs h

/-- **C8** counterexample: for the link `"a/../b"` the code removes the
interior `"../"` too (Python `str.replace` replaces every occurrence),
while the claim's strip-leading-prefixes description leaves it intact. -/
theorem resolve_counterexample :
    resolve_book_href "a/../b" ≠ resolve_book_href_spec "a/../b" ∧
    resolve_book_href "a/../b" = CATALOGUE_URL ++ "a/b" ∧
    resolve_book_href_spec "a/../b" = CATALOGUE_URL ++ "a/../b" :=
  ⟨by decide, by decide, by decide⟩

/-- **C8** (amended): the code removes *every* occurrence of `"../"` from
the embedded link and prepends `CATALOGUE_URL`; for every link in which
`"../"` occurs only as a leading prefix (as on the catalog's listing
pages), this coincides with stripping the leading `"../"` segments and
joining, leaving the rest of the link unchanged. -/
theorem resolve_book_href_eq_spec (href : String)
    (h : hasInfix "../".data (stripLeadingDotDotSlash href.data) = false) :
    resolve_book_href href = resolve_book_href_spec href := by
  unfold resolve_book_href resolve_book_href_spec
  rw [replace_eq_strip href.data h]

theorem resolve_book_href_eq_spec_witness :
    resolve_book_href "../../../its-only-the-himalayas_981/index.html" =
      resolve_book_href_spec "../../../its-only-the-himalayas_981/index.html" :=
  resolve_book_href_eq_spec "../../../its-only-the-himalayas_981/index.html"
    (by decide)

/-- **C7** counterexample: an item-listing element with no heading is not
skipped — `article.find("h3")` returns `None` and calling `.find("a")` on
it raises `AttributeError`, aborting the listing-page loop. -/
theorem article_no_heading_counterexample :
    process_article noHeadingArticle = Except.error PyErr.attributeError := by
  decide

/-- **C7** (amended): an item-listing element whose heading contains no
anchor is skipped without error and the remaining elements are still
processed; but an element lacking the heading itself raises
`AttributeError` instead of being skipped. -/
theorem article_skip (art h3l : Html) (pre post : List Html)
    (hh : findFirst "h3" none none art = some h3l)
    (ha : findFirst "a" none none h3l = none) :
    process_article art = Except.ok none ∧
    process_articles (pre ++ art :: post) = process_articles (pre ++ post) := by
  have hskip : process_article art = Except.ok none := by
    unfold process_article
    simp only [hh, ha]
  refine ⟨hskip, ?_⟩
  induction pre with
  | nil =>
    simp only [List.nil_append, process_articles, hskip]
    cases hr : process_articles post <;>
      simp [Bind.bind, Except.bind, hr, pure, Except.pure]
  | cons x xs ih =>
    simp only [List.cons_append, process_articles, List.append_eq, ih]

theorem article_skip_witness :
    process_article noAnchorArticle = Except.ok none ∧
    process_articles ([] ++ noAnchorArticle :: []) = process_articles ([] ++ []) :=
  article_skip noAnchorArticle noAnchorHeading [] [] rfl rfl

theorem trimWS_subset (cs : List Char) : ∀ x ∈ trimWS cs, x ∈ cs := by
  intro x hx
  unfold trimWS at hx
  rw [List.mem_reverse] at hx
  have hx2 := (List.dropWhile_suffix _).subset hx
  rw [List.mem_reverse] at hx2
  exact (List.dropWhile_suffix _).subset hx2

theorem num_available_of_nonneg (raw : String) : 0 ≤ num_available_of raw := by
  unfold num_available_of
  cases h : findAvailCount raw.data
  · simp
  · simp

theorem pyInt_neg (s : String) (n : Int) (h : pyInt s = some n) (hn : n < 0) :
    '-' ∈ s.data := by
  unfold pyInt at h
  rcases hts : trimWS s.data with _ | ⟨c, ds⟩ <;> simp only [hts] at h
  · exact Option.noConfusion h
  · by_cases hc : (c == '-') = true
    · have hc' : c = '-' := by simpa using hc
      subst hc'
      exact trimWS_subset s.data '-' (by rw [hts]; simp)
    · rw [if_neg hc] at h
      by_cases hc2 : (c == '+') = true
      · rw [if_pos hc2] at h
        split at h
        · cases h
          exact absurd hn (Int.not_lt.mpr (Int.natCast_nonneg _))
        · exact Option.noConfusion h
      · rw [if_neg hc2] at h
        split at h
        · cases h
          exact absurd hn (Int.not_lt.mpr (Int.natCast_nonneg _))
        · exact Option.noConfusion h

/-- **C9** counterexample: a fetched page whose attribute table lists
`"Number of reviews"` as `"-5"` produces a fully constructed record with
`num_reviews = -5 < 0` — Python `int("-5")` accepts the minus sign. -/
theorem neg_reviews_counterexample :
    (buildBook negReviewsDoc "u").map Book.num_reviews = Except.ok (-5) ∧
    (-5 : Int) < 0 :=
  ⟨by decide, by decide⟩

/-- **C9** (amended): every constructed record has `num_available ≥ 0` (the
captured count is a digit run), and `num_reviews` can only be negative when
the raw `"Number of reviews"` table value contains a minus sign. -/
theorem nonneg_fields (soup : Html) (url : String) (b : Book)
    (h : buildBook soup url = Except.ok b) :
    0 ≤ b.num_available ∧
    ∃ info, extract_info soup = Except.ok info ∧
      (b.num_reviews < 0 →
        ∃ s, infoGet info "Number of reviews" = some s ∧ '-' ∈ s.data) := by
  unfold buildBook at h
  obtain ⟨t, -, h⟩ := (except_bind_ok _ _ _).mp h
  obtain ⟨info, hinfo, h⟩ := (except_bind_ok _ _ _).mp h
  obtain ⟨pe, -, h⟩ := (except_bind_ok _ _ _).mp h
  obtain ⟨pi, -, h⟩ := (except_bind_ok _ _ _).mp h
  obtain ⟨tx, -, h⟩ := (except_bind_ok _ _ _).mp h
  obtain ⟨nr, hnr, h⟩ := (except_bind_ok _ _ _).mp h
  have h' : Except.ok (ε := PyErr)
      { title := t, category := extract_category soup,
        rating := extract_rating soup, price := pi, price_excl_tax := pe,
        price_incl_tax := pi, tax := tx,
        availability := availability_of (infoGetD info "Availability" ""),
        num_available := num_available_of (infoGetD info "Availability" ""),
        num_reviews := nr, upc := infoGetD info "UPC" "",
        product_type := infoGetD info "Product Type" "",
        description := extract_description soup, book_url := url } = Except.ok b := h
  cases h'
  refine ⟨num_available_of_nonneg _, info, hinfo, fun hneg => ?_⟩
  unfold extract_num_reviews at hnr
  rcases hg : infoGet info "Number of reviews" with _ | s <;> simp only [hg] at hnr
  · cases hnr
    simp at hneg
  · rcases hp : pyInt s with _ | m
    · simp only [hp] at hnr
      exact Except.noConfusion hnr
    · simp only [hp, Except.ok.injEq] at hnr
      subst hnr
      exact ⟨s, rfl, pyInt_neg s m hp hneg⟩

theorem nonneg_fields_witness :
    0 ≤ (defaultRecord "u").num_available ∧
    ∃ info, extract_info emptyDoc = Except.ok info ∧
      ((defaultRecord "u").num_reviews < 0 →
        ∃ s, infoGet info "Number of reviews" = some s ∧ '-' ∈ s.data) :=
  nonneg_fields emptyDoc "u" (defaultRecord "u") (by decide)

/-- **C1** counterexample: a successfully fetched page whose main product
block has content but no `h1` heading makes `parse_book_page` raise
`AttributeError` (`title_tag.find("h1")` returns `None`), so malformed
inner structure does not always yield field-level defaults. -/
theorem parse_book_page_counterexample :
    parse_book_page (some mainNoH1Doc) "u" = Except.error PyErr.attributeError := by
  decide

/-- **C1** (amended): only a transport-level fetch failure yields the
absent (`None`) outcome — a successfully fetched page never does — and a
page with none of the structural anchors yields the all-defaults record;
but certain malformed inner structure (a product-main block without a
heading, a table row without a header or value cell, a non-numeric review
count, a digit-free dotted price value) raises an exception instead of
yielding defaults. -/
theorem parse_book_page_outcomes :
    (∀ url, parse_book_page none url = Except.ok none) ∧
    (∀ soup url, parse_book_page (some soup) url ≠ Except.ok none) ∧
    parse_book_page (some emptyDoc) "u" = Except.ok (some (defaultRecord "u")) := by
  refine ⟨fun _ => rfl, fun soup url h => ?_, by decide⟩
  simp only [parse_book_page] at h
  cases hb : buildBook soup url <;> rw [hb] at h <;> simp [Except.map] at h

theorem parse_book_page_outcomes_witness :
    parse_book_page (some emptyDoc) "u" ≠ Except.ok none :=
  parse_book_page_outcomes.2.1 emptyDoc "u"

theorem run_extract_append_ok (xs ys : List (String × Option Html))
    (A B : List Book) (hx : run_extract xs = Except.ok A)
    (hy : run_extract ys = Except.ok B) :
    run_extract (xs ++ ys) = Except.ok (A ++ B) := by
  induction xs generalizing A with
  | nil =>
    cases hx
    simpa using hy
  | cons p xs ih =>
    obtain ⟨u, pg⟩ := p
    unfold run_extract at hx
    obtain ⟨r, hr, hx⟩ := (except_bind_ok _ _ _).mp hx
    obtain ⟨tl, htl, hx⟩ := (except_bind_ok _ _ _).mp hx
    rw [List.cons_append]
    unfold run_extract
    refine (except_bind_ok _ _ _).mpr ⟨r, hr, ?_⟩
    refine (except_bind_ok _ _ _).mpr ⟨tl ++ B, ih tl htl, ?_⟩
    cases r with
    | none =>
      have hx' : Except.ok (ε := PyErr) tl = Except.ok A := hx
      cases hx'
      rfl
    | some b0 =>
      have hx' : Except.ok (ε := PyErr) (b0 :: tl) = Except.ok A := hx
      cases hx'
      have : Except.ok (ε := PyErr) (b0 :: (tl ++ B)) = Except.ok (b0 :: tl ++ B) := by
        rw [List.cons_append]
      exact this

/-- **C4**: when the detail-page fetch for one reference fails at the
transport level, extraction yields absent and the main loop appends
nothing for it: the output list is exactly the all-succeeding output with
that one record removed — one element shorter, all other records
identical and in the same relative order. -/
theorem transport_failure_skips (xs ys : List (String × Option Html))
    (u : String) (t : Html) (b : Book) (A B : List Book)
    (hx : run_extract xs = Except.ok A) (hy : run_extract ys = Except.ok B)
    (hb : parse_book_page (some t) u = Except.ok (some b)) :
    parse_book_page none u = Except.ok none ∧
    run_extract (xs ++ (u, some t) :: ys) = Except.ok (A ++ b :: B) ∧
    run_extract (xs ++ (u, none) :: ys) = Except.ok (A ++ B) ∧
    (A ++ b :: B).length = (A ++ B).length + 1 := by
  have hmid : run_extract ((u, some t) :: ys) = Except.ok (b :: B) := by
    unfold run_extract
    refine (except_bind_ok _ _ _).mpr ⟨some b, hb, ?_⟩
    exact (except_bind_ok _ _ _).mpr ⟨B, hy, rfl⟩
  have hmid0 : run_extract ((u, none) :: ys) = Except.ok B := by
    unfold run_extract
    refine (except_bind_ok _ _ _).mpr ⟨none, rfl, ?_⟩
    exact (except_bind_ok _ _ _).mpr ⟨B, hy, rfl⟩
  refine ⟨rfl, run_extract_append_ok xs _ A _ hx hmid,
    run_extract_append_ok xs _ A _ hx hmid0, by simp [Nat.add_assoc]⟩

theorem transport_failure_skips_witness :
    parse_book_page none "u" = Except.ok none ∧
    run_extract ([] ++ ("u", some emptyDoc) :: []) =
      Except.ok ([] ++ defaultRecord "u" :: []) ∧
    run_extract ([] ++ ("u", none) :: []) = Except.ok ([] ++ []) ∧
    (([] : List Book) ++ defaultRecord "u" :: ([] : List Book)).length =
      (([] : List Book) ++ ([] : List Book)).length + 1 :=
  transport_failure_skips [] [] "u" emptyDoc (defaultRecord "u") [] [] rfl rfl
    (by decide)
